import Mathlib

/-
Verification of the cgrates RADIUS agent (agents/radagent.go) and the tariff-plan
loader engine (loaders).  The Go code is translated into a shallow embedding:
pure decision logic becomes Lean functions, fallible external collaborators
(filterS, the session RPC connection manager, the data manager, the filesystem)
become explicit oracle fields of an environment record, and the observable
behaviour of each routine (RPC trace, buffer contents, error results) is
returned as data so that properties can be stated and proved about it.
-/

set_option autoImplicit false

namespace Cgrates

/-! ## Flag / constant vocabulary (utils constants used by radagent.go) -/

def MetaDryRun : String := "*dryrun"

def MetaAuthorize : String := "*authorize"

def MetaInitiate : String := "*initiate"

def MetaUpdate : String := "*update"

def MetaTerminate : String := "*terminate"

def MetaMessage : String := "*message"

def MetaCDRs : String := "*cdrs"

def MetaEvent : String := "*event"

def META_NONE : String := "*none"

def MetaRadauth : String := "*radauth"

def MetaContinue : String := "*continue"

def MetaAuth : String := "*auth"

def MetaInit : String := "*init"

def RalsErrorPrfx : String := "RALS_ERROR"

def MetaRadReqType : String := "*radReqType"

def MetaRadAuth : String := "*radAuth"

def RemoteHost : String := "RemoteHost"

/-- Modelled from the spec: processor flags are a set of tokens with optional
comma-params; `FlagsWithParams.HasKey`/`GetBool` test presence of a token
(the params, irrelevant to the claims here, are abstracted away). -/
def hasKey (flags : List String) (k : String) : Bool := flags.contains k

/-- embeds utils.ErrHasPrefix: nil-safe test that the error text starts with
the given text (radagent.go ll. 297, 317), stated over the character lists of
the strings. -/
def ErrHasPfx (e : Option String) (pfx : String) : Bool :=
  match e with
  | none => false
  | some s => List.isPrefixOf pfx.data s.data

/-! ## Request-type identification (radagent.go ll. 175-185) -/

/-- The fixed precedence list the `for _, typ := range []string{...}` loop of
processRequest walks (radagent.go ll. 176-180). -/
def reqTypeFlags : List String :=
  [MetaDryRun, MetaAuthorize, MetaInitiate, MetaUpdate, MetaTerminate,
   MetaMessage, MetaCDRs, MetaEvent, META_NONE, MetaRadauth]

/-- embeds the identification loop: the first flag of `l` present in the
processor's flags wins; if none is present `reqType` keeps the Go zero value
`""` (radagent.go ll. 181-184). -/
def firstFlag (flags : List String) : List String → String
  | [] => ""
  | t :: ts => if hasKey flags t then t else firstFlag flags ts

def reqTypeOf (flags : List String) : String := firstFlag flags reqTypeFlags

/-! ## The processor environment: outcomes of the external collaborators -/

/-- The session RPC methods processRequest can invoke through connMgr.Call. -/
inductive RPC
  | authorizeEvent
  | initiateSession
  | updateSession
  | terminateSession
  | processMessage
  | processEvent
  | processCDR
deriving DecidableEq

/-- The action RPCs, as opposed to the secondary ProcessCDR call. -/
def isActionRPC : RPC → Bool
  | RPC.processCDR => false
  | _ => true

/-- Outcomes of the external collaborators of one processRequest run:
filterS.Pass (ll. 166-169), agReq.SetFields on the request fields (l. 170),
utils.ExtractArgsFromOpts (ll. 186-192), connMgr.Call per method, the reply's
MaxUsage, the Debit flag of the V1ProcessMessageArgs envelope, radauthReq and
agReq.SetFields on the reply fields (l. 344). -/
structure Env where
  filterPass : Bool
  filterErr : Option String
  reqFieldsErr : Option String
  extractArgsErr : Option String
  rpcErr : RPC → Option String
  maxUsage : Int
  msgDebit : Bool
  radauthPass : Bool
  radauthErr : Option String
  replyFieldsErr : Option String

/-- The observable outcome of one processRequest run: the (processed, err)
return pair, the ordered trace of session RPCs issued, the value written to
cgrEv.Event[Usage] (if any), and whether SetFields(ReplyFields) was reached. -/
structure PRResult where
  processed : Bool
  err : Option String
  trace : List RPC
  usage : Option Int
  replyFieldsRun : Bool
deriving DecidableEq

/-- embeds the `switch reqType` of processRequest (radagent.go ll. 198-332):
the session RPC issued by each case and the Usage value it writes into the
charging event.  `*none` does nothing, `*dryrun` only logs, `*cdrs` is allowed
through to the secondary call, `*radauth` performs local RADIUS verification
(radauthReq) and issues no session RPC.  For `*message` a RALS-prefixed call
error forces Usage = 0, otherwise the Debit flag selects the reply MaxUsage
(ll. 296-304); `*event` behaves the same with needMaxUsage computed from the
`*auth`/`*init`/`*update` flags (ll. 311-324). -/
def switchResult (flags : List String) (env : Env) (reqType : String) :
    List RPC × Option Int :=
  if reqType == META_NONE then ([], none)
  else if reqType == MetaDryRun then ([], none)
  else if reqType == MetaAuthorize then ([RPC.authorizeEvent], none)
  else if reqType == MetaInitiate then ([RPC.initiateSession], none)
  else if reqType == MetaUpdate then ([RPC.updateSession], none)
  else if reqType == MetaTerminate then ([RPC.terminateSession], none)
  else if reqType == MetaMessage then
    ([RPC.processMessage],
      if ErrHasPfx (env.rpcErr RPC.processMessage) RalsErrorPrfx then some 0
      else if env.msgDebit then some env.maxUsage
      else none)
  else if reqType == MetaEvent then
    ([RPC.processEvent],
      if ErrHasPfx (env.rpcErr RPC.processEvent) RalsErrorPrfx then some 0
      else if hasKey flags MetaAuth || hasKey flags MetaInit ||
              hasKey flags MetaUpdate then some env.maxUsage
      else none)
  else if reqType == MetaCDRs then ([], none)
  else ([], none)

/-- embeds RadiusAgent.processRequest (radagent.go ll. 164-359).
The filter gate returns (pass, err) unchanged on failure; a request-fields
error aborts; the args-extraction error is logged and reset to nil (ll.
186-192); an empty reqType hits the `default` branch and returns the
unknown-request-type error; otherwise the switch runs, then — as a separate
request — ProcessCDR is issued whenever the flags contain `*cdrs` (ll.
333-342, its error being recorded in the CGR reply, not returned), and
finally SetFields(ReplyFields) runs (l. 344).
agReq.setCGRReply is Modelled from the spec: call failures populate
`*cgrep.Error` and reply-field mapping still runs, so it never aborts the
processor. -/
def processRequest (flags : List String) (env : Env) : PRResult :=
  if env.filterErr.isSome || !env.filterPass then
    { processed := env.filterPass, err := env.filterErr, trace := [],
      usage := none, replyFieldsRun := false }
  else if env.reqFieldsErr.isSome then
    { processed := false, err := env.reqFieldsErr, trace := [],
      usage := none, replyFieldsRun := false }
  else
    let reqType := reqTypeOf flags
    let _argsFailed := env.extractArgsErr.isSome
    if reqType == "" then
      { processed := false,
        err := some ("unknown request type: <" ++ reqType ++ ">"),
        trace := [], usage := none, replyFieldsRun := false }
    else
      let sw := switchResult flags env reqType
      let trace := if hasKey flags MetaCDRs then sw.1 ++ [RPC.processCDR]
                   else sw.1
      if env.replyFieldsErr.isSome then
        { processed := false, err := env.replyFieldsErr, trace := trace,
          usage := sw.2, replyFieldsRun := true }
      else
        { processed := true, err := none, trace := trace,
          usage := sw.2, replyFieldsRun := true }

/-! ## The handler loops (radagent.go handleAuth ll. 77-118, handleAcct ll. 122-161) -/

/-- Vars of the AgentRequest built in handleAuth before processRequest runs:
RemoteHost seeding shared by both handlers (l. 86) plus the
`agReq.Vars.Set(*radReqType, *radAuth)` call (l. 93). -/
def handleAuthVars (remoteHost : String) : List (String × String) :=
  [(RemoteHost, remoteHost), (MetaRadReqType, MetaRadAuth)]

/-- Vars of the AgentRequest built in handleAcct before processRequest runs:
only the RemoteHost seeding (l. 131); handleAcct performs no further
Vars.Set call before invoking processRequest (ll. 132-139). -/
def handleAcctVars (remoteHost : String) : List (String × String) :=
  [(RemoteHost, remoteHost)]

/-- One configured request processor together with the outcome of its
external collaborators. -/
structure ProcSpec where
  flags : List String
  env : Env

/-- The break condition of both handler loops (radagent.go ll. 98-100 and
142-144): stop iterating when processRequest returned an error, or when it
reported the request processed and the flags do not include `*continue`. -/
def loopBreakCond (p : ProcSpec) : Bool :=
  let r := processRequest p.flags p.env
  r.err.isSome || (r.processed && !hasKey p.flags MetaContinue)

/-- embeds the shared processor loop of handleAuth (ll. 87-101) and handleAcct
(ll. 132-145): walk the configured processors in order, accumulate the
`processed` flag, and stop on the break condition.  Returns the final
(processed, err) pair together with the number of processors processRequest
was invoked on. -/
def runProcessors : List ProcSpec → Bool → Bool × Option String × Nat
  | [], processed => (processed, none, 0)
  | p :: ps, processed =>
    let r := processRequest p.flags p.env
    let processed1 := if r.processed then true else processed
    if loopBreakCond p then
      (processed1, r.err, 1)
    else
      let rest := runProcessors ps processed1
      (rest.1, rest.2.1, rest.2.2 + 1)

/-! ## The loader engine (loaders, src/unnamed/part_000) -/

/-- One read result of a CSV reader: a record or a non-EOF read error.
io.EOF is represented by the reader's result list being exhausted. -/
inductive RowRes
  | record (fields : List String)
  | readErr (msg : String)
deriving DecidableEq

/-- An opened CSV reader of a loader type: file name and remaining rows, in
one possible Go map-iteration order of `ldr.rdrs[loaderType]`. -/
abbrev Rdr := String × List RowRes

/-- One row's decoded data: field name to value, insertion ordered. -/
abbrev LoaderData := List (String × String)

/-- The tenant-keyed row buffer `ldr.bufLoaderData`, as an association list. -/
abbrev Buf := List (String × List LoaderData)

def bufHas (buf : Buf) (k : String) : Bool := (buf.lookup k).isSome

def bufGet (buf : Buf) (k : String) : List LoaderData :=
  (buf.lookup k).getD []

def bufErase (buf : Buf) (k : String) : Buf :=
  buf.filter (fun p => p.1 != k)

def bufAppend (buf : Buf) (k : String) (d : LoaderData) : Buf :=
  if bufHas buf k then
    buf.map (fun p => if p.1 == k then (p.1, p.2 ++ [d]) else p)
  else buf ++ [(k, [d])]

/-- Outcomes of the loader's external collaborators.
`update` is Modelled from the spec: LoaderData.UpdateFromCSV (not under src/)
decodes a record's columns through the per-column templates of the named file
and yields the fields to merge into the row, or an error.
`tenantID` is Modelled from the spec: LoaderData.TenantID (not under src/)
computes the logical key `tenant:ID` of the row.
`store` abstracts the outcome of storeLoadedData/removeLoadedData for one
flushed tenant group (loaderType, tenant key, rows): the data-manager and
cache-RPC internals are external collaborators; only success or error is
observed by the row loop. -/
structure LdrEnv where
  update : String → List String → Except String LoaderData
  tenantID : LoaderData → String
  store : String → String → List LoaderData → Option String

/-- embeds the inner `for fName, rdr := range ldr.rdrs[loaderType]` loop of
one logical row (processContent ll. 207-233, removeContent ll. 641-667):
each reader reads one record; io.EOF sets keepLooping=false and breaks (the
readers after it are not read this round); a non-EOF read error sets
hasErrors and skips to the next reader; once hasErrors is set the remaining
readers still read but their records are not decoded; a decode error also
sets hasErrors.  Returns the advanced readers, the EOF flag and the row data
accumulated so far. -/
def readRow (env : LdrEnv) :
    List Rdr → Bool → LoaderData → List Rdr × Bool × LoaderData
  | [], _, acc => ([], false, acc)
  | (fName, rows) :: rs, hasErrors, acc =>
    match rows with
    | [] => ((fName, []) :: rs, true, acc)
    | RowRes.readErr _ :: rest =>
      let o := readRow env rs true acc
      ((fName, rest) :: o.1, o.2.1, o.2.2)
    | RowRes.record fields :: rest =>
      if hasErrors then
        let o := readRow env rs true acc
        ((fName, rest) :: o.1, o.2.1, o.2.2)
      else
        match env.update fName fields with
        | Except.error _ =>
          let o := readRow env rs true acc
          ((fName, rest) :: o.1, o.2.1, o.2.2)
        | Except.ok delta =>
          let o := readRow env rs false (acc ++ delta)
          ((fName, rest) :: o.1, o.2.1, o.2.2)

/-- Result of one buffering step: the new buffer, the store calls issued
(tenant key with the rows flushed) and the storage error, if any. -/
structure StepOut where
  buf : Buf
  calls : List (String × List LoaderData)
  err : Option String
deriving DecidableEq

/-- embeds the row-buffering block of processContent (ll. 237-250) and
removeContent (ll. 671-684): compute the tenant key; if it is not buffered
yet while the buffer already holds exactly one key, flush that previous
tenant group to storage first (returning its error, if any) and delete it;
then append the row under its own key. -/
def bufferRow (env : LdrEnv) (loaderType : String) (buf : Buf)
    (lData : LoaderData) : StepOut :=
  let tntID := env.tenantID lData
  if !bufHas buf tntID && buf.length == 1 then
    let prevTntID := ((buf.head?).map Prod.fst).getD ""
    match env.store loaderType prevTntID (bufGet buf prevTntID) with
    | some e => ⟨buf, [(prevTntID, bufGet buf prevTntID)], some e⟩
    | none =>
      ⟨bufAppend (bufErase buf prevTntID) tntID lData,
       [(prevTntID, bufGet buf prevTntID)], none⟩
  else
    ⟨bufAppend buf tntID lData, [], none⟩

/-- Final state of the row loop of one content pass. -/
structure PassOut where
  readers : List Rdr
  buf : Buf
  calls : List (String × List LoaderData)
  err : Option String
deriving DecidableEq

/-- embeds the outer `for keepLooping` loop of processContent (ll. 203-251)
and removeContent (ll. 637-685), fuelled because the Go loop has no intrinsic
termination measure (with no configured reader it never ends): read one
logical row; an empty row is skipped (`could be the last line in file`);
otherwise the buffering step runs, a storage error returning immediately;
the loop ends when a reader hit io.EOF. -/
def contentRows (env : LdrEnv) (loaderType : String) :
    Nat → List Rdr → Buf → List (String × List LoaderData) → Option PassOut
  | 0, _, _, _ => none
  | fuel + 1, readers, buf, calls =>
    let o := readRow env readers false []
    if o.2.2.isEmpty then
      if o.2.1 then some ⟨o.1, buf, calls, none⟩
      else contentRows env loaderType fuel o.1 buf calls
    else
      let st := bufferRow env loaderType buf o.2.2
      match st.err with
      | some e => some ⟨o.1, st.buf, calls ++ st.calls, some e⟩
      | none =>
        if o.2.1 then some ⟨o.1, st.buf, calls ++ st.calls, none⟩
        else contentRows env loaderType fuel o.1 st.buf (calls ++ st.calls)

/-- embeds Loader.processContent (ll. 199-263); Loader.removeContent (ll.
633-697) is structurally identical, differing only in the storage callback,
which the `store` oracle of the environment abstracts.  After the row loop,
the remaining buffered element (or the zero key "" when the buffer is empty)
is flushed and deleted. -/
def processContent (env : LdrEnv) (loaderType : String) (fuel : Nat)
    (readers : List Rdr) (buf0 : Buf) : Option PassOut :=
  match contentRows env loaderType fuel readers buf0 [] with
  | none => none
  | some out =>
    match out.err with
    | some _ => some out
    | none =>
      let tntID := ((out.buf.head?).map Prod.fst).getD ""
      match env.store loaderType tntID (bufGet out.buf tntID) with
      | some e =>
        some ⟨out.readers, out.buf,
              out.calls ++ [(tntID, bufGet out.buf tntID)], some e⟩
      | none =>
        some ⟨out.readers, bufErase out.buf tntID,
              out.calls ++ [(tntID, bufGet out.buf tntID)], none⟩

/-- Outcomes of ProcessFolder's external collaborators: the lock-file
creation (lockFolder, ll. 127-131), os.Open per (type, file), the result of
the processContent/removeContent call made after opening each file of the
type (processFiles ll. 183-193), and moveFiles (ll. 156-170). -/
structure FolderEnv where
  lockErr : Option String
  openErr : String → String → Option String
  contentErr : String → String → Option String
  moveErr : Option String

/-- embeds Loader.processFiles (ll. 172-196): for each file of the type, open
it (returning the open error) and run the configured load option; any content
or storage error returns immediately, leaving the remaining files of the type
unprocessed. -/
def processFiles (env : FolderEnv) (loaderType : String) :
    List String → Option String
  | [] => none
  | f :: fs =>
    match env.openErr loaderType f with
    | some e => some e
    | none =>
      match env.contentErr loaderType f with
      | some e => some e
      | none => processFiles env loaderType fs

/-- embeds the `for ldrType := range ldr.rdrs` loop of ProcessFolder (ll.
116-122): a failing type is logged as a warning and the loop continues with
the next type.  Returns each type with its processFiles result. -/
def folderTypesLoop (env : FolderEnv) (filesOf : String → List String) :
    List String → List (String × Option String)
  | [] => []
  | t :: ts =>
    match processFiles env t (filesOf t) with
    | some e => (t, some e) :: folderTypesLoop env filesOf ts
    | none => (t, none) :: folderTypesLoop env filesOf ts

/-- Observable outcome of one folder pass: the returned error, the loader
types attempted (with their per-type result) and whether the lockfile was
removed before returning. -/
structure FolderResult where
  err : Option String
  attempted : List (String × Option String)
  lockRemoved : Bool
deriving DecidableEq

/-- embeds Loader.ProcessFolder (ll. 111-124): acquire the lock (returning
its error without touching the lockfile otherwise), defer unlockFolder —
which removes the lockfile on every later exit path — walk all loader types,
then return moveFiles' result. -/
def ProcessFolder (env : FolderEnv) (filesOf : String → List String)
    (types : List String) : FolderResult :=
  match env.lockErr with
  | some e => ⟨some e, [], false⟩
  | none => ⟨env.moveErr, folderTypesLoop env filesOf types, true⟩

/-! ## Concrete scenarios used to evaluate the embedding -/

/-- An environment where every external collaborator succeeds. -/
def okEnv : Env :=
  { filterPass := true, filterErr := none, reqFieldsErr := none,
    extractArgsErr := none, rpcErr := fun _ => none, maxUsage := 60,
    msgDebit := true, radauthPass := true, radauthErr := none,
    replyFieldsErr := none }

/-- An environment where the ProcessMessage call fails with a RALS-prefixed
domain error. -/
def ralsMsgEnv : Env :=
  { okEnv with
    rpcErr := fun r =>
      if r == RPC.processMessage then some "RALS_ERROR:INSUFFICIENT_FUNDS"
      else none }

/-- Two readers of one loader type, in the Go map-iteration order where the
healthy file comes first and the file whose first row has a non-EOF CSV read
error comes second. -/
def twoRdrScenario : List Rdr :=
  [("Attributes1.csv", [RowRes.record ["cgrates.org", "ATTR1"]]),
   ("Attributes2.csv",
    [RowRes.readErr "record on line 1: wrong number of fields"])]

/-- Loader environment of the two-reader scenario: the first file decodes the
Tenant and ID columns, the second file would decode the Contexts column, and
storage always succeeds. -/
def twoRdrEnv : LdrEnv :=
  { update := fun fName r =>
      if fName == "Attributes1.csv" then
        Except.ok [("Tenant", r.headD ""), ("ID", (r.drop 1).headD "")]
      else Except.ok [("Contexts", r.headD "")]
  , tenantID := fun d =>
      ((d.lookup "Tenant").getD "") ++ ":" ++ ((d.lookup "ID").getD "")
  , store := fun _ _ _ => none }

/-- Loader environment whose rows carry their tenant key in the TK field. -/
def tkEnv : LdrEnv :=
  { update := fun _ r => Except.ok [("TK", r.headD "")]
  , tenantID := fun d => (d.lookup "TK").getD ""
  , store := fun _ _ _ => none }

/-- Folder environment where the attributes type hits a storage error and
every other collaborator succeeds. -/
def storeFailFolderEnv : FolderEnv :=
  { lockErr := none
  , openErr := fun _ _ => none
  , contentErr := fun lt _ =>
      if lt == "*attributes" then some "MONGO_ERROR" else none
  , moveErr := none }

/-- Folder environment where every type fails and even moveFiles errors. -/
def allFailFolderEnv : FolderEnv :=
  { lockErr := none
  , openErr := fun _ _ => none
  , contentErr := fun _ _ => some "MONGO_ERROR"
  , moveErr := some "rename error" }

/-- One configured file per loader type. -/
def oneFilePerType : String → List String := fun _ => ["Data.csv"]

/-! ## Helper lemmas -/

theorem firstFlag_empty_or_mem (flags : List String) :
    ∀ l : List String, firstFlag flags l = "" ∨ firstFlag flags l ∈ l := by
  intro l
  induction l with
  | nil => exact Or.inl rfl
  | cons a as ih =>
    cases h : hasKey flags a with
    | true => simp [firstFlag, h]
    | false =>
      rcases ih with h1 | h1
      · exact Or.inl (by simp [firstFlag, h, h1])
      · refine Or.inr ?_
        simp only [firstFlag, h, if_false, Bool.false_eq_true]
        exact List.mem_cons_of_mem a h1

theorem firstFlag_all_absent (flags : List String) :
    ∀ l : List String, (∀ t ∈ l, hasKey flags t = false) →
      firstFlag flags l = "" := by
  intro l
  induction l with
  | nil => intro _; rfl
  | cons a as ih =>
    intro habs
    have ha : hasKey flags a = false := habs a (List.mem_cons_self a as)
    simp only [firstFlag, ha, Bool.false_eq_true, if_false]
    exact ih (fun t ht => habs t (List.mem_cons_of_mem a ht))

theorem firstFlag_none_absent (flags : List String) :
    ∀ l : List String, ("" : String) ∉ l → firstFlag flags l = "" →
      ∀ t ∈ l, hasKey flags t = false := by
  intro l
  induction l with
  | nil => intro _ _ t ht; cases ht
  | cons a as ih =>
    intro hne hff t ht
    cases h : hasKey flags a with
    | true =>
      exfalso
      have he : firstFlag flags (a :: as) = a := by simp [firstFlag, h]
      rw [he] at hff
      exact hne (hff ▸ List.mem_cons_self a as)
    | false =>
      have he : firstFlag flags (a :: as) = firstFlag flags as := by
        simp [firstFlag, h]
      rcases List.mem_cons.mp ht with rfl | ht1
      · exact h
      · exact ih (fun hc => hne (List.mem_cons_of_mem a hc)) (he ▸ hff) t ht1

theorem firstFlag_split (flags : List String) :
    ∀ l : List String, firstFlag flags l ≠ "" →
      hasKey flags (firstFlag flags l) = true ∧
      ∃ pre post, l = pre ++ firstFlag flags l :: post ∧
        ∀ t ∈ pre, hasKey flags t = false := by
  intro l
  induction l with
  | nil => intro h; exact absurd rfl h
  | cons a as ih =>
    intro hne
    cases h : hasKey flags a with
    | true =>
      have he : firstFlag flags (a :: as) = a := by simp [firstFlag, h]
      rw [he]
      exact ⟨h, [], as, rfl, by intro t ht; cases ht⟩
    | false =>
      have he : firstFlag flags (a :: as) = firstFlag flags as := by
        simp [firstFlag, h]
      rw [he] at hne ⊢
      obtain ⟨h1, pre, post, hsplit, hpre⟩ := ih hne
      refine ⟨h1, a :: pre, post,
        by rw [List.cons_append]; exact congrArg (List.cons a) hsplit, ?_⟩
      intro t ht
      rcases List.mem_cons.mp ht with rfl | ht1
      · exact h
      · exact hpre t ht1

theorem processRequest_shape (flags : List String) (env : Env)
    (hfe : env.filterErr = none) (hfp : env.filterPass = true)
    (hrf : env.reqFieldsErr = none) (hrt : reqTypeOf flags ≠ "") :
    (processRequest flags env).trace =
      (if hasKey flags MetaCDRs then
        (switchResult flags env (reqTypeOf flags)).1 ++ [RPC.processCDR]
       else (switchResult flags env (reqTypeOf flags)).1)
  ∧ (processRequest flags env).usage
      = (switchResult flags env (reqTypeOf flags)).2
  ∧ (processRequest flags env).replyFieldsRun = true := by
  have hrt1 : (reqTypeOf flags == "") = false := by
    simpa using hrt
  simp only [processRequest, hfe, hfp, hrf, hrt1, Option.isSome_none,
    Bool.not_true, Bool.or_false, Bool.false_eq_true, if_false]
  cases h : env.replyFieldsErr <;> simp

theorem switchResult_action_bound (flags : List String) (env : Env)
    (rt : String) (hrt : rt ∈ reqTypeFlags) :
    ((switchResult flags env rt).1.filter isActionRPC).length ≤ 1 := by
  simp only [reqTypeFlags, List.mem_cons, List.not_mem_nil, or_false] at hrt
  rcases hrt with rfl | rfl | rfl | rfl | rfl | rfl | rfl | rfl | rfl | rfl
  · have h1 : (switchResult flags env MetaDryRun).1 = [] := rfl
    rw [h1]; decide
  · have h1 : (switchResult flags env MetaAuthorize).1 = [RPC.authorizeEvent] := rfl
    rw [h1]; decide
  · have h1 : (switchResult flags env MetaInitiate).1 = [RPC.initiateSession] := rfl
    rw [h1]; decide
  · have h1 : (switchResult flags env MetaUpdate).1 = [RPC.updateSession] := rfl
    rw [h1]; decide
  · have h1 : (switchResult flags env MetaTerminate).1 = [RPC.terminateSession] := rfl
    rw [h1]; decide
  · have h1 : (switchResult flags env MetaMessage).1 = [RPC.processMessage] := rfl
    rw [h1]; decide
  · have h1 : (switchResult flags env MetaCDRs).1 = [] := rfl
    rw [h1]; decide
  · have h1 : (switchResult flags env MetaEvent).1 = [RPC.processEvent] := rfl
    rw [h1]; decide
  · have h1 : (switchResult flags env META_NONE).1 = [] := rfl
    rw [h1]; decide
  · have h1 : (switchResult flags env MetaRadauth).1 = [] := rfl
    rw [h1]; decide

theorem switchResult_no_cdr (flags : List String) (env : Env)
    (rt : String) (hrt : rt ∈ reqTypeFlags) :
    RPC.processCDR ∉ (switchResult flags env rt).1 := by
  simp only [reqTypeFlags, List.mem_cons, List.not_mem_nil, or_false] at hrt
  rcases hrt with rfl | rfl | rfl | rfl | rfl | rfl | rfl | rfl | rfl | rfl
  · have h1 : (switchResult flags env MetaDryRun).1 = [] := rfl
    rw [h1]; decide
  · have h1 : (switchResult flags env MetaAuthorize).1 = [RPC.authorizeEvent] := rfl
    rw [h1]; decide
  · have h1 : (switchResult flags env MetaInitiate).1 = [RPC.initiateSession] := rfl
    rw [h1]; decide
  · have h1 : (switchResult flags env MetaUpdate).1 = [RPC.updateSession] := rfl
    rw [h1]; decide
  · have h1 : (switchResult flags env MetaTerminate).1 = [RPC.terminateSession] := rfl
    rw [h1]; decide
  · have h1 : (switchResult flags env MetaMessage).1 = [RPC.processMessage] := rfl
    rw [h1]; decide
  · have h1 : (switchResult flags env MetaCDRs).1 = [] := rfl
    rw [h1]; decide
  · have h1 : (switchResult flags env MetaEvent).1 = [RPC.processEvent] := rfl
    rw [h1]; decide
  · have h1 : (switchResult flags env META_NONE).1 = [] := rfl
    rw [h1]; decide
  · have h1 : (switchResult flags env MetaRadauth).1 = [] := rfl
    rw [h1]; decide

/-! ## Claim theorems: the RADIUS agent -/

/-- C1: For every processor whose filters match, processRequest issues at
most one action RPC (one of AuthorizeEvent, InitiateSession, UpdateSession,
TerminateSession, ProcessMessage, ProcessEvent), and issues a second,
separate ProcessCDR call after the primary action exactly when the
processor's flags contain `*cdrs`; processors whose action kind is `*none`,
`*dryrun` or `*radauth` issue no action RPC. -/
theorem processRequest_rpc_discipline (flags : List String) (env : Env)
    (hfe : env.filterErr = none) (hfp : env.filterPass = true)
    (hrf : env.reqFieldsErr = none) :
    ((processRequest flags env).trace.filter isActionRPC).length ≤ 1
  ∧ (RPC.processCDR ∈ (processRequest flags env).trace ↔
       hasKey flags MetaCDRs = true)
  ∧ (hasKey flags MetaCDRs = true →
       ∃ pre, (processRequest flags env).trace = pre ++ [RPC.processCDR])
  ∧ ((reqTypeOf flags = META_NONE ∨ reqTypeOf flags = MetaDryRun ∨
        reqTypeOf flags = MetaRadauth) →
       ((processRequest flags env).trace.filter isActionRPC).length = 0) := by
  by_cases hrt : reqTypeOf flags = ""
  · have hcdrs : hasKey flags MetaCDRs = false :=
      firstFlag_none_absent flags reqTypeFlags (by decide) hrt MetaCDRs
        (by decide)
    have htr : (processRequest flags env).trace = [] := by
      simp [processRequest, hfe, hfp, hrf, hrt]
    refine ⟨?_, ?_, ?_, ?_⟩
    · rw [htr]; simp
    · rw [htr, hcdrs]; simp
    · intro hck; rw [hck] at hcdrs; cases hcdrs
    · intro _; rw [htr]; simp
  · obtain ⟨htr, _, _⟩ := processRequest_shape flags env hfe hfp hrf hrt
    have hmem : reqTypeOf flags ∈ reqTypeFlags := by
      rcases firstFlag_empty_or_mem flags reqTypeFlags with h | h
      · exact absurd h hrt
      · exact h
    refine ⟨?_, ?_, ?_, ?_⟩
    · rw [htr]
      cases hck : hasKey flags MetaCDRs with
      | false =>
        simp only [Bool.false_eq_true, if_false]
        exact switchResult_action_bound flags env (reqTypeOf flags) hmem
      | true =>
        simp only [if_true, List.filter_append]
        have h2 : List.filter isActionRPC [RPC.processCDR] = [] := rfl
        rw [h2, List.append_nil]
        exact switchResult_action_bound flags env (reqTypeOf flags) hmem
    · rw [htr]
      cases hck : hasKey flags MetaCDRs with
      | false =>
        simp only [Bool.false_eq_true, if_false]
        simpa using switchResult_no_cdr flags env (reqTypeOf flags) hmem
      | true => simp
    · intro hck
      rw [htr]
      simp only [hck, if_true]
      exact ⟨(switchResult flags env (reqTypeOf flags)).1, rfl⟩
    · intro h3
      have hsw : (switchResult flags env (reqTypeOf flags)).1 = [] := by
        rcases h3 with h | h | h <;> rw [h] <;> rfl
      rw [htr, hsw]
      cases hck : hasKey flags MetaCDRs <;> simp [isActionRPC]

/-- C2: For every processor, the action kind is the first flag present in the
fixed precedence order `*dryrun, *authorize, *initiate, *update, *terminate,
*message, *cdrs, *event, *none, *radauth`; if none of these flags is present,
processRequest returns the unknown-request-type error and the processor is
not treated as processed. -/
theorem reqType_first_flag_wins (flags : List String) (env : Env)
    (hfe : env.filterErr = none) (hfp : env.filterPass = true)
    (hrf : env.reqFieldsErr = none) :
    (reqTypeOf flags ≠ "" →
       reqTypeOf flags ∈ reqTypeFlags ∧
       hasKey flags (reqTypeOf flags) = true ∧
       ∃ pre post, reqTypeFlags = pre ++ reqTypeOf flags :: post ∧
         ∀ t ∈ pre, hasKey flags t = false)
  ∧ ((∀ t ∈ reqTypeFlags, hasKey flags t = false) →
       reqTypeOf flags = "" ∧
       (processRequest flags env).processed = false ∧
       (processRequest flags env).err = some "unknown request type: <>") := by
  constructor
  · intro hne
    obtain ⟨h1, pre, post, hsp, hpre⟩ := firstFlag_split flags reqTypeFlags hne
    refine ⟨?_, h1, pre, post, hsp, hpre⟩
    rw [hsp]
    exact List.mem_append_right _ (List.mem_cons_self _ _)
  · intro habs
    have h0 : reqTypeOf flags = "" := firstFlag_all_absent flags reqTypeFlags habs
    refine ⟨h0, ?_, ?_⟩ <;> simp [processRequest, hfe, hfp, hrf, h0]

/-- C8: For the `*message` and `*event` actions, a session RPC error carrying
the RALS prefix sets the event Usage to 0 while reply-field mapping still
runs; without a RALS error, `*message` with the debit flag and `*event` with
any of `*auth`, `*init`, `*update` present set Usage to the reply MaxUsage. -/
theorem rals_error_usage_policy (flags : List String) (env : Env)
    (hfe : env.filterErr = none) (hfp : env.filterPass = true)
    (hrf : env.reqFieldsErr = none) :
    (reqTypeOf flags = MetaMessage →
       ErrHasPfx (env.rpcErr RPC.processMessage) RalsErrorPrfx = true →
       (processRequest flags env).usage = some 0 ∧
       (processRequest flags env).replyFieldsRun = true)
  ∧ (reqTypeOf flags = MetaEvent →
       ErrHasPfx (env.rpcErr RPC.processEvent) RalsErrorPrfx = true →
       (processRequest flags env).usage = some 0 ∧
       (processRequest flags env).replyFieldsRun = true)
  ∧ (reqTypeOf flags = MetaMessage →
       ErrHasPfx (env.rpcErr RPC.processMessage) RalsErrorPrfx = false →
       env.msgDebit = true →
       (processRequest flags env).usage = some env.maxUsage)
  ∧ (reqTypeOf flags = MetaEvent →
       ErrHasPfx (env.rpcErr RPC.processEvent) RalsErrorPrfx = false →
       (hasKey flags MetaAuth || hasKey flags MetaInit ||
          hasKey flags MetaUpdate) = true →
       (processRequest flags env).usage = some env.maxUsage) := by
  refine ⟨?_, ?_, ?_, ?_⟩
  · intro hm hrals
    have hne : reqTypeOf flags ≠ "" := by rw [hm]; decide
    obtain ⟨_, hu, hrun⟩ := processRequest_shape flags env hfe hfp hrf hne
    rw [hm] at hu
    refine ⟨?_, hrun⟩
    rw [hu]
    show (if ErrHasPfx (env.rpcErr RPC.processMessage) RalsErrorPrfx then
            some 0
          else if env.msgDebit then some env.maxUsage else none) = some 0
    rw [hrals]
    rfl
  · intro hm hrals
    have hne : reqTypeOf flags ≠ "" := by rw [hm]; decide
    obtain ⟨_, hu, hrun⟩ := processRequest_shape flags env hfe hfp hrf hne
    rw [hm] at hu
    refine ⟨?_, hrun⟩
    rw [hu]
    show (if ErrHasPfx (env.rpcErr RPC.processEvent) RalsErrorPrfx then some 0
          else if hasKey flags MetaAuth || hasKey flags MetaInit ||
                  hasKey flags MetaUpdate then some env.maxUsage
          else none) = some 0
    rw [hrals]
    rfl
  · intro hm hrals hdebit
    have hne : reqTypeOf flags ≠ "" := by rw [hm]; decide
    obtain ⟨_, hu, _⟩ := processRequest_shape flags env hfe hfp hrf hne
    rw [hm] at hu
    rw [hu]
    show (if ErrHasPfx (env.rpcErr RPC.processMessage) RalsErrorPrfx then
            some 0
          else if env.msgDebit then some env.maxUsage else none)
        = some env.maxUsage
    rw [hrals, hdebit]
    rfl
  · intro hm hrals hneed
    have hne : reqTypeOf flags ≠ "" := by rw [hm]; decide
    obtain ⟨_, hu, _⟩ := processRequest_shape flags env hfe hfp hrf hne
    rw [hm] at hu
    rw [hu]
    show (if ErrHasPfx (env.rpcErr RPC.processEvent) RalsErrorPrfx then some 0
          else if hasKey flags MetaAuth || hasKey flags MetaInit ||
                  hasKey flags MetaUpdate then some env.maxUsage
          else none) = some env.maxUsage
    rw [hrals, hneed]
    rfl

/-- C10: a dispatcher/paginator args-extraction failure inside processRequest
is logged and reset to nil: the outcome is the same as with a successful
extraction, and the processor is still processed rather than skipped. -/
theorem extractArgs_failure_swallowed (flags : List String) (env : Env)
    (e : String)
    (hfe : env.filterErr = none) (hfp : env.filterPass = true)
    (hrf : env.reqFieldsErr = none) (hrt : reqTypeOf flags ≠ "")
    (hrp : env.replyFieldsErr = none) :
    processRequest flags { env with extractArgsErr := some e }
      = processRequest flags { env with extractArgsErr := none }
  ∧ (processRequest flags { env with extractArgsErr := some e }).processed
      = true := by
  constructor
  · obtain ⟨fp, fe, rf, ea, rpc, mu, md, rp, re, rfe⟩ := env
    rfl
  · have hrt1 : (reqTypeOf flags == "") = false := by simpa using hrt
    simp [processRequest, hfe, hfp, hrf, hrt1, hrp]

/-- C5 (code bug): the auth handler seeds the `*vars` variable `*radReqType`
with `*radAuth` before any processor runs (radagent.go l. 93), but the
accounting handler seeds no `*radReqType` variable at all: its AgentRequest
vars hold only RemoteHost, so the claimed derivation from Acct-Status-Type
never happens (ll. 131-139). -/
theorem radReqType_seeding (remoteHost : String) :
    (handleAuthVars remoteHost).lookup MetaRadReqType = some MetaRadAuth
  ∧ (handleAcctVars remoteHost).lookup MetaRadReqType = none :=
  ⟨rfl, rfl⟩

theorem runProcessors_invoked_pos (ps : List ProcSpec) (b : Bool)
    (h : ps ≠ []) : 1 ≤ (runProcessors ps b).2.2 := by
  cases ps with
  | nil => exact absurd rfl h
  | cons p qs =>
    simp only [runProcessors]
    split
    · simp
    · simp

/-- C6: in both handler loops (auth and accounting), after a processor
reports itself processed without error, iteration over the remaining
processors continues if and only if its flags include `*continue`; hence
`*continue` is the only flag that lets more than one matching processor
execute for a single packet. -/
theorem continue_flag_controls_iteration (p : ProcSpec) (ps : List ProcSpec)
    (b : Bool)
    (hp : (processRequest p.flags p.env).processed = true)
    (he : (processRequest p.flags p.env).err = none)
    (hne : ps ≠ []) :
    (loopBreakCond p = false ↔ hasKey p.flags MetaContinue = true)
  ∧ (1 < (runProcessors (p :: ps) b).2.2 ↔
       hasKey p.flags MetaContinue = true) := by
  have hbc : loopBreakCond p = !hasKey p.flags MetaContinue := by
    simp [loopBreakCond, he, hp]
  constructor
  · rw [hbc]; cases hasKey p.flags MetaContinue <;> simp
  · have hrp : (runProcessors (p :: ps) b).2.2 =
        if loopBreakCond p then 1 else (runProcessors ps true).2.2 + 1 := by
      simp only [runProcessors, hp, if_true]
      split <;> rfl
    rw [hrp, hbc]
    cases hc : hasKey p.flags MetaContinue with
    | true =>
      have h1 := runProcessors_invoked_pos ps true hne
      simp only [Bool.not_true, Bool.false_eq_true, if_false, hc, iff_true]
      omega
    | false => simp

/-! ## Claim theorems: the loader engine -/

/-- C3 (code bug): with two readers of one loader type, in the Go
map-iteration order where the healthy file comes first, a non-EOF read error
on the second reader does not discard the current logical row: the data
already decoded from the first file stays in the row, is buffered under its
tenant key, and is finally flushed to storage — contradicting the code's own
comment that when any of the readers gives an error the line is ignored
(processContent ll. 215-221, removeContent ll. 649-655 behave alike). -/
theorem row_error_partial_row_stored :
    (processContent twoRdrEnv "*attributes" 3 twoRdrScenario []).map
        PassOut.calls
      = some [("cgrates.org:ATTR1",
               [[("Tenant", "cgrates.org"), ("ID", "ATTR1")]])] := by
  rfl

/-- C7: during a content pass the row buffer holds at most one tenant key
between row iterations, and a row carrying a different tenant key first
flushes the buffered group to storage and removes it from the buffer, and
only then buffers the new row under its own key. -/
theorem buffer_single_tenant (env : LdrEnv) (loaderType : String) :
    (∀ buf lData, buf.length ≤ 1 →
       (bufferRow env loaderType buf lData).err = none →
       (bufferRow env loaderType buf lData).buf.length ≤ 1)
  ∧ (∀ k rows lData, env.tenantID lData ≠ k →
       (bufferRow env loaderType [(k, rows)] lData).calls = [(k, rows)]
     ∧ ((bufferRow env loaderType [(k, rows)] lData).err = none →
         (bufferRow env loaderType [(k, rows)] lData).buf
           = [(env.tenantID lData, [lData])])) := by
  constructor
  · intro buf lData hlen herr
    rcases buf with _ | ⟨⟨k, rows⟩, rest⟩
    · simp [bufferRow, bufHas, bufAppend]
    · rcases rest with _ | ⟨q, rest2⟩
      · by_cases hk : (env.tenantID lData == k) = true
        · have heq : env.tenantID lData = k := by simpa using hk
          simp [bufferRow, bufHas, bufGet, bufErase, bufAppend,
            List.lookup, heq]
        · have hk1 : (env.tenantID lData == k) = false := by
            simpa using hk
          rcases hst : env.store loaderType k rows with _ | e
          · simp [bufferRow, bufHas, bufGet, bufErase, bufAppend,
              List.lookup, hk1, hst]
          · exfalso
            rw [show (bufferRow env loaderType [(k, rows)] lData).err
                  = some e by
                simp [bufferRow, bufHas, bufGet, List.lookup, hk1, hst]]
              at herr
            cases herr
      · simp at hlen
  · intro k rows lData hk
    have hk1 : (env.tenantID lData == k) = false := by
      simpa using hk
    rcases hst : env.store loaderType k rows with _ | e
    · constructor
      · simp [bufferRow, bufHas, bufGet, List.lookup, hk1, hst]
      · intro _
        simp [bufferRow, bufHas, bufGet, bufErase, bufAppend,
          List.lookup, hk1, hst]
    · constructor
      · simp [bufferRow, bufHas, bufGet, List.lookup, hk1, hst]
      · intro hc
        rw [show (bufferRow env loaderType [(k, rows)] lData).err = some e by
            simp [bufferRow, bufHas, bufGet, List.lookup, hk1, hst]] at hc
        cases hc

theorem folderTypesLoop_all_types (env : FolderEnv)
    (filesOf : String → List String) :
    ∀ types : List String,
      (folderTypesLoop env filesOf types).map Prod.fst = types := by
  intro types
  induction types with
  | nil => rfl
  | cons t ts ih =>
    simp only [folderTypesLoop]
    cases h : processFiles env t (filesOf t) <;> simp [ih]

/-- C4 counterexample: a storage error while processing the `*attributes`
type does not end the folder pass: the `*resources` type is still attempted
afterwards, refuting the claim that none of the remaining loader types of
the pass are attempted. -/
theorem folder_pass_continues_counterexample :
    (ProcessFolder storeFailFolderEnv oneFilePerType
        ["*attributes", "*resources"]).attempted
      = [("*attributes", some "MONGO_ERROR"), ("*resources", none)] := by
  rfl

/-- C4 amended: a storage error short-circuits the failing type (processFiles
returns the error at once, leaving that type's remaining files unprocessed)
and the folder lockfile is still released at the end of the pass, but the
remaining loader types of the pass are still attempted: the per-type error is
logged as a warning and the loop continues with the next type. -/
theorem folder_pass_error_policy (env : FolderEnv)
    (filesOf : String → List String) (types : List String)
    (lt f : String) (fs : List String) (e : String)
    (hlock : env.lockErr = none) (hopen : env.openErr lt f = none)
    (hc : env.contentErr lt f = some e) :
    processFiles env lt (f :: fs) = some e
  ∧ (ProcessFolder env filesOf types).attempted.map Prod.fst = types
  ∧ (ProcessFolder env filesOf types).lockRemoved = true := by
  refine ⟨?_, ?_, ?_⟩
  · simp [processFiles, hopen, hc]
  · simp [ProcessFolder, hlock, folderTypesLoop_all_types]
  · simp [ProcessFolder, hlock]

/-- C9: whenever lockFolder succeeds, the deferred unlockFolder removes the
lockfile before ProcessFolder returns, on every exit path — per-type
processing errors and a moveFiles failure included. -/
theorem folder_lock_always_released (env : FolderEnv)
    (filesOf : String → List String) (types : List String)
    (hlock : env.lockErr = none) :
    (ProcessFolder env filesOf types).lockRemoved = true := by
  simp [ProcessFolder, hlock]

/-! ## Witnesses -/

theorem processRequest_rpc_discipline_witness :
    ((processRequest [MetaAuthorize, MetaCDRs] okEnv).trace.filter
        isActionRPC).length ≤ 1
  ∧ (RPC.processCDR ∈ (processRequest [MetaAuthorize, MetaCDRs] okEnv).trace ↔
       hasKey [MetaAuthorize, MetaCDRs] MetaCDRs = true)
  ∧ (hasKey [MetaAuthorize, MetaCDRs] MetaCDRs = true →
       ∃ pre, (processRequest [MetaAuthorize, MetaCDRs] okEnv).trace
         = pre ++ [RPC.processCDR])
  ∧ ((reqTypeOf [MetaAuthorize, MetaCDRs] = META_NONE ∨
        reqTypeOf [MetaAuthorize, MetaCDRs] = MetaDryRun ∨
        reqTypeOf [MetaAuthorize, MetaCDRs] = MetaRadauth) →
       ((processRequest [MetaAuthorize, MetaCDRs] okEnv).trace.filter
           isActionRPC).length = 0) :=
  processRequest_rpc_discipline [MetaAuthorize, MetaCDRs] okEnv rfl rfl rfl

theorem reqType_first_flag_wins_witness :
    (reqTypeOf [MetaTerminate, MetaCDRs] ≠ "" →
       reqTypeOf [MetaTerminate, MetaCDRs] ∈ reqTypeFlags ∧
       hasKey [MetaTerminate, MetaCDRs]
         (reqTypeOf [MetaTerminate, MetaCDRs]) = true ∧
       ∃ pre post, reqTypeFlags
           = pre ++ reqTypeOf [MetaTerminate, MetaCDRs] :: post ∧
         ∀ t ∈ pre, hasKey [MetaTerminate, MetaCDRs] t = false)
  ∧ ((∀ t ∈ reqTypeFlags, hasKey [MetaTerminate, MetaCDRs] t = false) →
       reqTypeOf [MetaTerminate, MetaCDRs] = "" ∧
       (processRequest [MetaTerminate, MetaCDRs] okEnv).processed = false ∧
       (processRequest [MetaTerminate, MetaCDRs] okEnv).err
         = some "unknown request type: <>") :=
  reqType_first_flag_wins [MetaTerminate, MetaCDRs] okEnv rfl rfl rfl

theorem rals_error_usage_policy_witness :
    (processRequest [MetaMessage] ralsMsgEnv).usage = some 0
  ∧ (processRequest [MetaMessage] ralsMsgEnv).replyFieldsRun = true :=
  (rals_error_usage_policy [MetaMessage] ralsMsgEnv rfl rfl rfl).1 rfl
    (by decide)

theorem extractArgs_failure_swallowed_witness :
    processRequest [MetaTerminate]
        { okEnv with extractArgsErr := some "DISPATCHER_ERROR" }
      = processRequest [MetaTerminate] { okEnv with extractArgsErr := none }
  ∧ (processRequest [MetaTerminate]
        { okEnv with extractArgsErr := some "DISPATCHER_ERROR" }).processed
      = true :=
  extractArgs_failure_swallowed [MetaTerminate] okEnv "DISPATCHER_ERROR"
    rfl rfl rfl (by decide) rfl

theorem continue_flag_controls_iteration_witness :
    (loopBreakCond ⟨[META_NONE, MetaContinue], okEnv⟩ = false ↔
       hasKey [META_NONE, MetaContinue] MetaContinue = true)
  ∧ (1 < (runProcessors
        (⟨[META_NONE, MetaContinue], okEnv⟩ :: [⟨[META_NONE], okEnv⟩])
        false).2.2 ↔
       hasKey [META_NONE, MetaContinue] MetaContinue = true) :=
  continue_flag_controls_iteration ⟨[META_NONE, MetaContinue], okEnv⟩
    [⟨[META_NONE], okEnv⟩] false rfl rfl (List.cons_ne_nil _ _)

theorem buffer_single_tenant_witness :
    (bufferRow tkEnv "*attributes" [("t1:A", [[("TK", "t1:A")]])]
        [("TK", "t2:B")]).calls = [("t1:A", [[("TK", "t1:A")]])]
  ∧ ((bufferRow tkEnv "*attributes" [("t1:A", [[("TK", "t1:A")]])]
        [("TK", "t2:B")]).err = none →
      (bufferRow tkEnv "*attributes" [("t1:A", [[("TK", "t1:A")]])]
        [("TK", "t2:B")]).buf
        = [(tkEnv.tenantID [("TK", "t2:B")], [[("TK", "t2:B")]])]) :=
  (buffer_single_tenant tkEnv "*attributes").2 "t1:A" [[("TK", "t1:A")]]
    [("TK", "t2:B")] (by decide)

theorem folder_pass_error_policy_witness :
    processFiles storeFailFolderEnv "*attributes" ["Data.csv"]
      = some "MONGO_ERROR"
  ∧ (ProcessFolder storeFailFolderEnv oneFilePerType
        ["*attributes", "*resources"]).attempted.map Prod.fst
      = ["*attributes", "*resources"]
  ∧ (ProcessFolder storeFailFolderEnv oneFilePerType
        ["*attributes", "*resources"]).lockRemoved = true :=
  folder_pass_error_policy storeFailFolderEnv oneFilePerType
    ["*attributes", "*resources"] "*attributes" "Data.csv" [] "MONGO_ERROR"
    rfl rfl rfl

theorem folder_lock_always_released_witness :
    (ProcessFolder allFailFolderEnv oneFilePerType
        ["*attributes", "*resources"]).lockRemoved = true :=
  folder_lock_always_released allFailFolderEnv oneFilePerType
    ["*attributes", "*resources"] rfl

end Cgrates
